import Mathlib

/-!
Verification of the scheduling-intelligence core of the social-calendar
repository: the duration estimator (`src/lib/nlp/duration-estimator.ts`),
the conflict detector, and the availability calculator / meeting suggester.
Timestamps are modelled as exact integers (milliseconds for the conflict
detector, minutes for the availability engine).  JavaScript floating-point
numbers are modelled as exact rationals; because every constant in the
source is a small decimal, all arithmetic performed by the programs is
exact.  Rationals are represented as unnormalized integer fractions with a
positive denominator (type `Q` below) so that every definition evaluates by
kernel reduction.
-/

namespace SocialCalendar

/-- An exact rational `num / den`.  Every fraction built by the embedded
programs has a positive denominator, so comparisons are implemented by
cross-multiplication. -/
structure Q where
  num : ℤ
  den : ℤ
deriving DecidableEq

instance (n : ℕ) : OfNat Q n := ⟨⟨(n : ℤ), 1⟩⟩

/-- Decimal literals: `0.5` elaborates to `⟨5, 10⟩`, and so on. -/
instance : OfScientific Q :=
  ⟨fun m b e =>
    if b then ⟨(m : ℤ), (Nat.pow 10 e : ℕ)⟩ else ⟨(m : ℤ) * ((Nat.pow 10 e : ℕ) : ℤ), 1⟩⟩

def Q.ofInt (n : ℤ) : Q := ⟨n, 1⟩

instance : Mul Q := ⟨fun a b => ⟨a.num * b.num, a.den * b.den⟩⟩

instance : Add Q := ⟨fun a b => ⟨a.num * b.den + b.num * a.den, a.den * b.den⟩⟩

instance : Sub Q := ⟨fun a b => ⟨a.num * b.den - b.num * a.den, a.den * b.den⟩⟩

instance : Div Q := ⟨fun a b => ⟨a.num * b.den, a.den * b.num⟩⟩

instance : LT Q := ⟨fun a b => a.num * b.den < b.num * a.den⟩

instance : LE Q := ⟨fun a b => a.num * b.den ≤ b.num * a.den⟩

instance (a b : Q) : Decidable (a < b) :=
  inferInstanceAs (Decidable (a.num * b.den < b.num * a.den))

instance (a b : Q) : Decidable (a ≤ b) :=
  inferInstanceAs (Decidable (a.num * b.den ≤ b.num * a.den))

/-- Value equality of fractions (structural equality is finer). -/
def Q.eqv (a b : Q) : Prop := a.num * b.den = b.num * a.den

instance (a b : Q) : Decidable (Q.eqv a b) :=
  inferInstanceAs (Decidable (a.num * b.den = b.num * a.den))

/-- JS `Math.min`. -/
def Q.minOf (a b : Q) : Q := if a ≤ b then a else b

/-- Floor of a fraction with positive denominator. -/
def Q.floor (a : Q) : ℤ := a.num.fdiv a.den

/-- JS `Math.round`: `⌊x + 1/2⌋`, rounding half-integers up. -/
def jsRound (q : Q) : ℤ := Q.floor (q + ⟨1, 2⟩)

/-- JS `Math.ceil`. -/
def jsCeil (q : Q) : ℤ := -((-q.num).fdiv q.den)

instance : ToString Q := ⟨fun a => toString a.num ++ "/" ++ toString a.den⟩

namespace Duration

/-- Characters matched by the regex class `\s` (ASCII fragment). -/
def isWsChar (c : Char) : Bool :=
  c == ' ' || c == '\t' || c == '\n' || c == '\r'

/-- Characters matched by the regex class `\d`. -/
def isDigitChar (c : Char) : Bool :=
  '0' ≤ c && c ≤ '9'

/-- Shorthand: the character list of a string literal. -/
def str (s : String) : List Char := s.data

/-- JS `haystack.includes(needle)`: contiguous-substring test. -/
def containsSub : List Char → List Char → Bool
  | needle, [] => needle.isEmpty
  | needle, c :: r => needle.isPrefixOf (c :: r) || containsSub needle r

/-- Worker for `splitWs`.  `some acc` means a word (reversed in `acc`) is
being accumulated, `none` means the scanner sits just after whitespace. -/
def splitWsAux : Option (List Char) → List Char → List (List Char)
  | some acc, [] => [acc.reverse]
  | none, [] => [[]]
  | some acc, c :: r =>
      if isWsChar c then acc.reverse :: splitWsAux none r
      else splitWsAux (some (c :: acc)) r
  | none, c :: r =>
      if isWsChar c then splitWsAux none r
      else splitWsAux (some [c]) r

/-- JS `text.split(/\s+/)`: splits on maximal whitespace runs, producing a
leading (trailing) empty word when the text starts (ends) with whitespace. -/
def splitWs (text : List Char) : List (List Char) :=
  splitWsAux (some []) text

/-- One entry of the estimator's task-pattern table. -/
structure TaskPattern where
  keywords : List (List Char)
  baseMinutes : Q
  multipliers : List (List Char × Q)

/-- The task-pattern table of `DurationEstimator.patterns`, in declaration
order. -/
def patterns : List TaskPattern :=
  [ { keywords := [str "meeting", str "call", str "standup", str "sync",
        str "check-in", str "discussion"]
      baseMinutes := 30
      multipliers := [(str "quick", 0.5), (str "brief", 0.5), (str "short", 0.5),
        (str "long", 2), (str "extended", 2.5), (str "all-day", 8),
        (str "team", 1.5), (str "client", 1.5)] },
    { keywords := [str "code", str "develop", str "implement", str "build",
        str "create", str "program", str "debug", str "fix"]
      baseMinutes := 120
      multipliers := [(str "simple", 0.5), (str "basic", 0.5), (str "quick", 0.5),
        (str "complex", 2), (str "advanced", 2.5), (str "refactor", 1.5),
        (str "prototype", 0.8), (str "production", 2)] },
    { keywords := [str "research", str "analyze", str "investigate", str "study",
        str "explore", str "learn"]
      baseMinutes := 90
      multipliers := [(str "quick", 0.5), (str "deep", 2), (str "thorough", 2),
        (str "comprehensive", 3), (str "preliminary", 0.7)] },
    { keywords := [str "document", str "write", str "documentation", str "readme",
        str "manual", str "guide"]
      baseMinutes := 60
      multipliers := [(str "quick", 0.5), (str "brief", 0.5), (str "detailed", 2),
        (str "comprehensive", 3), (str "technical", 1.5)] },
    { keywords := [str "design", str "mockup", str "wireframe", str "prototype",
        str "ui", str "ux"]
      baseMinutes := 90
      multipliers := [(str "simple", 0.7), (str "complex", 2), (str "detailed", 1.5),
        (str "high-fidelity", 2), (str "low-fidelity", 0.8)] },
    { keywords := [str "test", str "testing", str "qa", str "review", str "validate"]
      baseMinutes := 45
      multipliers := [(str "quick", 0.5), (str "thorough", 2),
        (str "comprehensive", 2.5), (str "unit", 0.8), (str "integration", 1.5),
        (str "e2e", 2)] },
    { keywords := [str "email", str "admin", str "administrative", str "paperwork",
        str "form", str "application"]
      baseMinutes := 20
      multipliers := [(str "quick", 0.5), (str "detailed", 1.5), (str "complex", 2)] },
    { keywords := [str "presentation", str "present", str "demo", str "showcase",
        str "pitch"]
      baseMinutes := 45
      multipliers := [(str "prepare", 3), (str "create", 4), (str "deliver", 1),
        (str "practice", 1.5)] } ]

/-- The `commonMultipliers` table, in declaration order. -/
def commonMultipliers : List (List Char × Q) :=
  [(str "small", 0.5), (str "large", 2), (str "huge", 3), (str "tiny", 0.3),
   (str "massive", 4),
   (str "urgent", 0.8), (str "asap", 0.8), (str "rush", 0.7),
   (str "simple", 0.6), (str "easy", 0.5), (str "hard", 2), (str "difficult", 2.5),
   (str "challenging", 2),
   (str "hour", 1), (str "hours", 2), (str "day", 8), (str "days", 16),
   (str "week", 40), (str "month", 160)]

/-- `DurationEstimator.calculateMatchScore`: fraction of keywords `k` with
some word `w` such that `w.includes(k) || k.includes(w)`. -/
def calculateMatchScore (words : List (List Char)) (keywords : List (List Char)) : Q :=
  Q.ofInt (keywords.countP fun k =>
      words.any fun w => containsSub k w || containsSub w k : ℕ) /
    Q.ofInt (keywords.length : ℕ)

/-- The best-match loop of `estimateDuration`: keeps the first pattern whose
score strictly exceeds the running maximum (initially `0`). -/
def findBestMatch (words : List (List Char)) : Option TaskPattern × Q :=
  patterns.foldl
    (fun st p =>
      let score := calculateMatchScore words p.keywords
      if st.2 < score then (some p, score) else st)
    (none, 0)

/-- Multiply `m` by every multiplier of `table` whose keyword occurs in
`text` as a substring. -/
def applyMultipliers (text : List Char) (table : List (List Char × Q)) (m : Q) : Q :=
  table.foldl (fun acc kv => if containsSub kv.1 text then acc * kv.2 else acc) m

/-- Reads a maximal digit run, returning its decimal value (JS `parseInt`)
and the rest of the input. -/
def readNat (acc : ℕ) : List Char → ℕ × List Char
  | [] => (acc, [])
  | c :: r =>
      if isDigitChar c then readNat (acc * 10 + (c.toNat - '0'.toNat)) r
      else (acc, c :: r)

/-- Skips the regex `\s*`. -/
def dropWs : List Char → List Char
  | [] => []
  | c :: r => if isWsChar c then dropWs r else c :: r

/-- Leftmost match of the regex `(\d+)\s*(unit1|unit2)s?` against the text,
returning the captured number.  Scanning position by position is equivalent
to the regex engine because a failed match at the head of a digit run also
fails at every later position inside the same run. -/
def scanTimePattern (units : List (List Char)) : List Char → Option ℕ
  | [] => none
  | c :: r =>
      if isDigitChar c then
        let p := readNat 0 (c :: r)
        if units.any fun u => u.isPrefixOf (dropWs p.2) then some p.1
        else scanTimePattern units r
      else scanTimePattern units r

/-- `DurationEstimator.extractTimeIndicators`: the four time patterns tried
in order, each over the full text. -/
def extractTimeIndicators (text : List Char) : Option ℕ :=
  match scanTimePattern [str "minute", str "min"] text with
  | some n => some (n * 1)
  | none =>
    match scanTimePattern [str "hour", str "hr"] text with
    | some n => some (n * 60)
    | none =>
      match scanTimePattern [str "day"] text with
      | some n => some (n * 480)
      | none =>
        match scanTimePattern [str "week"] text with
        | some n => some (n * 2400)
        | none => none

/-- The technical-term list of `calculateComplexityMultiplier`. -/
def technicalTerms : List (List Char) :=
  [str "api", str "database", str "server", str "deploy", str "infrastructure",
   str "architecture", str "framework", str "integration", str "migration",
   str "optimization", str "performance", str "security", str "scalability"]

/-- `DurationEstimator.calculateComplexityMultiplier`. -/
def calculateComplexityMultiplier (text : List Char) (wordCount : ℕ) : Q :=
  let m : Q := 1
  let m := if 20 < wordCount then m * 1.3 else m
  let m := if 50 < wordCount then m * 1.5 else m
  let tc := (technicalTerms.filter fun t => containsSub t text).length
  let m := if 0 < tc then m * (1 + Q.ofInt (tc : ℕ) * 0.2) else m
  let m := if containsSub (str "step") text || containsSub (str "phase") text ||
      containsSub (str "stage") text then m * 1.4 else m
  let m := if containsSub (str "team") text || containsSub (str "collaborate") text ||
      containsSub (str "coordinate") text then m * 1.3 else m
  m

/-- The lowercased `title + " " + (description || "")` that the estimator
scans. -/
def mkText (title : String) (description : Option String) : List Char :=
  ((title ++ " " ++ description.getD "").data).map Char.toLower

/-- The non-short-circuit tail of `estimateDuration`: applies the complexity
multiplier, rounds, and clamps into `[5, 480]`. -/
def clampedEstimate (base m : Q) (text : List Char) (wordCount : ℕ) : ℤ :=
  max 5 (min 480 (jsRound (base * (m * calculateComplexityMultiplier text wordCount))))

/-- `DurationEstimator.estimateDuration`.  A nonzero explicit time indicator
is returned directly (JS truthiness: a parsed `0` falls through to the
clamped path). -/
def estimateDuration (title : String) (description : Option String) : ℤ :=
  let text := mkText title description
  let words := splitWs text
  let best := findBestMatch words
  let baseEstimate : Q := match best.1 with | some p => p.baseMinutes | none => 60
  let m1 : Q := match best.1 with
    | some p => applyMultipliers text p.multipliers 1
    | none => 1
  let m2 := applyMultipliers text commonMultipliers m1
  match extractTimeIndicators text with
  | some n => if n = 0 then clampedEstimate baseEstimate m2 text words.length else (n : ℤ)
  | none => clampedEstimate baseEstimate m2 text words.length

end Duration

open Duration in
/-- Bounds of the clamp `Math.max(5, Math.min(480, x))`. -/
theorem clampedEstimate_bounds (base m : Q) (text : List Char) (wordCount : ℕ) :
    5 ≤ clampedEstimate base m text wordCount ∧ clampedEstimate base m text wordCount ≤ 480 := by
  unfold clampedEstimate
  exact ⟨le_max_left _ _, max_le (by norm_num) (min_le_left _ _)⟩

/-- C1 counterexample: on the title "Quick team meeting" the estimator does
not return 23 minutes. -/
theorem c1_counterexample : Duration.estimateDuration "Quick team meeting" none ≠ 23 := by
  decide

/-- C1 (amended): on the title "Quick team meeting" (meeting category, base
30) the estimator composes the pattern multipliers "quick" ×0.5 and "team"
×1.5 with the collaboration complexity multiplier ×1.3 (the text contains
"team"), returning round(30 × 0.5 × 1.5 × 1.3) = 29 minutes. -/
theorem c1_amended : Duration.estimateDuration "Quick team meeting" none = 29 := by
  decide

/-- C2 counterexample: the input "2 days" contains an explicit numeric
duration, which the estimator returns directly without clamping: the result
960 lies outside [5, 480]. -/
theorem c2_counterexample :
    Duration.estimateDuration "2 days" none = 960 ∧
      ¬ Duration.estimateDuration "2 days" none ≤ 480 := by
  constructor <;> decide

/-- C2 (amended): for every title and optional description the estimate lies
in [5, 480], unless the text contains a nonzero explicit numeric duration,
in which case that parsed value is returned directly and unclamped (a parsed
zero, e.g. "0 minutes", is falsy in JS and falls through to the clamped
path). -/
theorem c2_amended (title : String) (description : Option String) :
    (5 ≤ Duration.estimateDuration title description ∧
      Duration.estimateDuration title description ≤ 480) ∨
    (∃ n : ℕ, n ≠ 0 ∧
      Duration.extractTimeIndicators (Duration.mkText title description) = some n ∧
      Duration.estimateDuration title description = (n : ℤ)) := by
  rcases h : Duration.extractTimeIndicators (Duration.mkText title description) with _ | n
  · left
    simp only [Duration.estimateDuration, h]
    exact clampedEstimate_bounds _ _ _ _
  · by_cases hn : n = 0
    · left
      simp only [Duration.estimateDuration, h, hn, if_pos rfl]
      exact clampedEstimate_bounds _ _ _ _
    · right
      refine ⟨n, hn, rfl, ?_⟩
      simp only [Duration.estimateDuration, h, if_neg hn]

namespace Conflicts

/-- A normalized calendar event; times are absolute timestamps in
milliseconds (JS `Date.getTime()`). -/
structure Event where
  id : String
  title : String
  startTime : ℤ
  endTime : ℤ
  calendarId : String
  isWork : Bool
  userId : String
deriving DecidableEq

inductive ConflictType where
  | overlap
  | double_booking
  | back_to_back
  | travel_time
deriving DecidableEq

inductive Severity where
  | low
  | medium
  | high
  | critical
deriving DecidableEq

structure Conflict where
  id : String
  type : ConflictType
  severity : Severity
  primaryEvent : Event
  conflictingEvent : Event
  overlapDuration : Option ℤ
  description : String
  suggestions : List String
deriving DecidableEq

structure ConflictDetectionOptions where
  includeBackToBack : Option Bool := none
  travelTimeMinutes : Option ℤ := none
  workPersonalSeparation : Option Bool := none

/-- The options after `{ ...this.defaultOptions, ...options }`. -/
structure MergedConflictOptions where
  includeBackToBack : Bool
  travelTimeMinutes : ℤ
  workPersonalSeparation : Bool

def mergeConflictOptions (o : ConflictDetectionOptions) : MergedConflictOptions :=
  { includeBackToBack := o.includeBackToBack.getD true
    travelTimeMinutes := o.travelTimeMinutes.getD 15
    workPersonalSeparation := o.workPersonalSeparation.getD false }

/-- The overlap test of `checkOverlap`: two mirror-image open-interval
tests, plus the exactly-equal case. -/
def overlapCondition (e1 e2 : Event) : Prop :=
  (e1.startTime < e2.endTime ∧ e1.endTime > e2.startTime) ∨
  (e2.startTime < e1.endTime ∧ e2.endTime > e1.startTime) ∨
  (e1.startTime = e2.startTime ∧ e1.endTime = e2.endTime)

instance (e1 e2 : Event) : Decidable (overlapCondition e1 e2) := by
  unfold overlapCondition
  infer_instance

/-- `Math.round((overlapEnd - overlapStart) / (1000 * 60))` of
`checkOverlap`, in minutes. -/
def overlapMinutes (e1 e2 : Event) : ℤ :=
  jsRound (Q.ofInt (min e1.endTime e2.endTime - max e1.startTime e2.startTime) / 60000)

/-- An event's duration in minutes, as the exact rational
`(end - start) / (1000 * 60)`. -/
def durationMinutes (e : Event) : Q :=
  Q.ofInt (e.endTime - e.startTime) / 60000

/-- The severity/type cascade of `checkOverlap` (already knowing that the
overlap condition holds). -/
def classifyOverlap (e1 e2 : Event) : ConflictType × Severity :=
  if e1.startTime = e2.startTime ∧ e1.endTime = e2.endTime then
    (ConflictType.double_booking, Severity.critical)
  else if Q.ofInt (overlapMinutes e1 e2) >
      Q.minOf (durationMinutes e1) (durationMinutes e2) * 0.5 then
    (ConflictType.overlap, Severity.high)
  else if overlapMinutes e1 e2 > 30 then
    (ConflictType.overlap, Severity.medium)
  else
    (ConflictType.overlap, Severity.low)

/-- `generateConflictDescription`. -/
def generateConflictDescription (e1 e2 : Event) (t : ConflictType) (dur : ℤ) : String :=
  match t with
  | ConflictType.double_booking =>
      "Double booking: \"" ++ e1.title ++ "\" and \"" ++ e2.title ++
        "\" are scheduled at the exact same time"
  | ConflictType.overlap =>
      "Time conflict: \"" ++ e1.title ++ "\" and \"" ++ e2.title ++ "\" overlap by " ++
        toString dur ++ " minutes"
  | _ => "Conflict between \"" ++ e1.title ++ "\" and \"" ++ e2.title ++ "\""

/-- `generateConflictSuggestions`. -/
def generateConflictSuggestions (e1 e2 : Event) (t : ConflictType) (dur : ℤ) : List String :=
  (match t with
   | ConflictType.double_booking =>
       ["Reschedule one of the events to a different time",
        "Delegate attendance to a colleague if possible",
        "Consider if both events are truly necessary"]
   | ConflictType.overlap =>
       ["Shorten \"" ++ e1.title ++ "\" by " ++ toString dur ++ " minutes",
        "Move \"" ++ e2.title ++ "\" to start " ++ toString dur ++ " minutes later",
        "Reschedule one event to a completely different time slot"] ++
       (if dur < 30 then ["Join the second meeting late or leave the first meeting early"]
        else [])
   | _ => []) ++
  ["Check with attendees about flexibility in timing",
   "Consider if any meetings can be made shorter or asynchronous"]

/-- `ConflictDetector.checkOverlap`. -/
def checkOverlap (e1 e2 : Event) : Option Conflict :=
  if overlapCondition e1 e2 then
    let dur := overlapMinutes e1 e2
    let ts := classifyOverlap e1 e2
    some { id := "conflict_" ++ e1.id ++ "_" ++ e2.id
           type := ts.1
           severity := ts.2
           primaryEvent := e1
           conflictingEvent := e2
           overlapDuration := some dur
           description := generateConflictDescription e1 e2 ts.1 dur
           suggestions := generateConflictSuggestions e1 e2 ts.1 dur }
  else none

/-- The gap `(event2.start - event1.end) / (1000 * 60)` of
`checkBackToBack`, in minutes. -/
def timeBetween (e1 e2 : Event) : Q :=
  Q.ofInt (e2.startTime - e1.endTime) / 60000

/-- `ConflictDetector.checkBackToBack`. -/
def checkBackToBack (e1 e2 : Event) (travelTimeMinutes : ℤ) : Option Conflict :=
  let tb := timeBetween e1 e2
  if 0 ≤ tb ∧ tb < Q.ofInt travelTimeMinutes then
    let severity :=
      if tb.eqv 0 then Severity.medium
      else if tb < 5 then Severity.medium
      else Severity.low
    some { id := "conflict_" ++ e1.id ++ "_" ++ e2.id
           type := ConflictType.travel_time
           severity := severity
           primaryEvent := e1
           conflictingEvent := e2
           overlapDuration := none
           description := "Insufficient time between \"" ++ e1.title ++ "\" and \"" ++
             e2.title ++ "\" (" ++ toString (jsRound tb) ++ " minutes)"
           suggestions := ["Add " ++ toString (Q.ofInt travelTimeMinutes - tb) ++
               " minutes buffer between meetings",
             "Move one of the meetings to a different time",
             "Consider virtual attendance if both meetings are remote"] }
  else none

/-- JS `Date.getHours` for a millisecond timestamp (UTC). -/
def jsGetHours (t : ℤ) : ℤ := (t.fdiv 3600000) % 24

/-- `ConflictDetector.checkWorkPersonalSeparation`. -/
def checkWorkPersonalSeparation (e1 e2 : Event) : Option Conflict :=
  if e1.isWork ≠ e2.isWork then
    let workEvent := if e1.isWork then e1 else e2
    let personalEvent := if e1.isWork then e2 else e1
    let workEventHour := jsGetHours workEvent.startTime
    if workEventHour < 9 ∨ 17 ≤ workEventHour then
      some { id := "conflict_" ++ e1.id ++ "_" ++ e2.id
             type := ConflictType.overlap
             severity := Severity.medium
             primaryEvent := workEvent
             conflictingEvent := personalEvent
             overlapDuration := none
             description := "Work event \"" ++ workEvent.title ++
               "\" scheduled during personal time"
             suggestions := ["Move work event to regular business hours",
               "Consider if this work event is truly necessary outside work hours",
               "Block personal time to prevent work scheduling"] }
    else none
  else none

/-- `ConflictDetector.detectConflictBetweenEvents`: the three checks in
precedence order; `options.travelTimeMinutes` is also a JS truthiness test,
so a zero travel time disables the back-to-back check. -/
def detectConflictBetweenEvents (e1 e2 : Event) (opts : MergedConflictOptions) :
    Option Conflict :=
  match checkOverlap e1 e2 with
  | some c => some c
  | none =>
    match (if opts.includeBackToBack ∧ opts.travelTimeMinutes ≠ 0 then
        checkBackToBack e1 e2 opts.travelTimeMinutes else none) with
    | some c => some c
    | none =>
      if opts.workPersonalSeparation then checkWorkPersonalSeparation e1 e2 else none

/-- The double loop of `detectConflicts` over pairs `i < j` of the sorted
event list, skipping same-calendar pairs. -/
def pairConflicts (opts : MergedConflictOptions) : List Event → List Conflict
  | [] => []
  | e :: rest =>
      rest.filterMap (fun e2 =>
        if e.calendarId = e2.calendarId then none
        else detectConflictBetweenEvents e e2 opts) ++
      pairConflicts opts rest

/-- JS `[a, b].sort().join("_")`: the order-independent key of
`deduplicateConflicts`. -/
def sortedPairKey (a b : String) : String :=
  if a ≤ b then a ++ "_" ++ b else b ++ "_" ++ a

def conflictKey (c : Conflict) : String :=
  sortedPairKey c.primaryEvent.id c.conflictingEvent.id

/-- The filter of `deduplicateConflicts`, with the `seen` set made
explicit. -/
def dedupAux (seen : List String) : List Conflict → List Conflict
  | [] => []
  | c :: r =>
      if conflictKey c ∈ seen then dedupAux seen r
      else c :: dedupAux (conflictKey c :: seen) r

def deduplicateConflicts (l : List Conflict) : List Conflict := dedupAux [] l

/-- `ConflictDetector.detectConflicts`: sort by start time (JS sort is
stable), visit all pairs `i < j`, skip same-calendar pairs, deduplicate. -/
def detectConflicts (events : List Event) (options : ConflictDetectionOptions) :
    List Conflict :=
  let opts := mergeConflictOptions options
  deduplicateConflicts
    (pairConflicts opts
      (List.insertionSort (fun a b => a.startTime ≤ b.startTime) events))

/-- `ConflictDetector.detectConflictsForEvent`. -/
def detectConflictsForEvent (newEvent : Event) (existingEvents : List Event)
    (options : ConflictDetectionOptions) : List Conflict :=
  let opts := mergeConflictOptions options
  existingEvents.filterMap (fun e =>
    if e.id = newEvent.id then none
    else detectConflictBetweenEvents newEvent e opts)

end Conflicts

namespace Conflicts

theorem Q.lt_iff (a b : Q) : a < b ↔ a.num * b.den < b.num * a.den := Iff.rfl

theorem Q.le_iff (a b : Q) : a ≤ b ↔ a.num * b.den ≤ b.num * a.den := Iff.rfl

/-- The overlap test is symmetric in the two events. -/
theorem overlapCondition_symm {e1 e2 : Event} (h : overlapCondition e1 e2) :
    overlapCondition e2 e1 := by
  rcases h with h | h | h
  · exact Or.inr (Or.inl h)
  · exact Or.inl h
  · exact Or.inr (Or.inr ⟨h.1.symm, h.2.symm⟩)

theorem overlapMinutes_symm (e1 e2 : Event) :
    overlapMinutes e1 e2 = overlapMinutes e2 e1 := by
  unfold overlapMinutes
  rw [min_comm, max_comm]

/-- `Q.minOf` is order-independent for fractions with the same positive
denominator. -/
theorem Q.minOf_comm_same_den (a b : Q) (hpos : 0 < a.den) (hden : a.den = b.den) :
    Q.minOf a b = Q.minOf b a := by
  unfold Q.minOf
  by_cases h : a ≤ b
  · by_cases h2 : b ≤ a
    · rw [if_pos h, if_pos h2]
      rw [Q.le_iff] at h h2
      rw [← hden] at h h2
      have hnum : a.num = b.num :=
        mul_right_cancel₀ (ne_of_gt hpos) (le_antisymm h h2)
      cases a
      cases b
      simp only at hnum hden
      rw [hnum, hden]
    · rw [if_pos h, if_neg h2]
  · have h2 : b ≤ a := by
      rw [Q.le_iff] at h ⊢
      omega
    rw [if_neg h, if_pos h2]

/-- `Math.min` of two event durations is order-independent: both fractions
have the same positive denominator `60000`. -/
theorem minOf_durations_comm (e1 e2 : Event) :
    Q.minOf (durationMinutes e1) (durationMinutes e2) =
      Q.minOf (durationMinutes e2) (durationMinutes e1) :=
  Q.minOf_comm_same_den _ _ (by show (0 : ℤ) < 1 * 60000; omega) rfl

/-- The severity/type cascade of `checkOverlap` is symmetric in the two
events. -/
theorem classifyOverlap_symm (e1 e2 : Event) :
    classifyOverlap e1 e2 = classifyOverlap e2 e1 := by
  unfold classifyOverlap
  rw [overlapMinutes_symm e1 e2, minOf_durations_comm e1 e2]
  have hiff : (e1.startTime = e2.startTime ∧ e1.endTime = e2.endTime) ↔
      (e2.startTime = e1.startTime ∧ e2.endTime = e1.endTime) :=
    ⟨fun x => ⟨x.1.symm, x.2.symm⟩, fun x => ⟨x.1.symm, x.2.symm⟩⟩
  simp only [hiff]

/-- Sorting a two-element list by start time (JS sort is stable, so a tie
keeps the original order). -/
theorem insertionSort_pair (A B : Event) :
    List.insertionSort (fun a b => a.startTime ≤ b.startTime) [A, B] =
      if A.startTime ≤ B.startTime then [A, B] else [B, A] := by
  simp [List.insertionSort, List.orderedInsert]

/-- `detectConflicts` on a two-event list from different calendars reduces
to the single pairwise check on the sorted pair. -/
theorem detectConflicts_two (A B : Event) (o : ConflictDetectionOptions)
    (hcal : A.calendarId ≠ B.calendarId) :
    detectConflicts [A, B] o =
      (match detectConflictBetweenEvents (if A.startTime ≤ B.startTime then A else B)
          (if A.startTime ≤ B.startTime then B else A) (mergeConflictOptions o) with
       | some c => [c]
       | none => []) := by
  unfold detectConflicts deduplicateConflicts
  rw [insertionSort_pair]
  by_cases h : A.startTime ≤ B.startTime
  · rw [if_pos h, if_pos h, if_pos h]
    show dedupAux [] (List.filterMap _ [B] ++ pairConflicts _ [B]) = _
    simp only [pairConflicts, List.filterMap_cons, List.filterMap_nil, if_neg hcal,
      List.append_nil]
    cases hc : detectConflictBetweenEvents A B (mergeConflictOptions o) with
    | none => simp [dedupAux]
    | some c => simp [dedupAux]
  · rw [if_neg h, if_neg h, if_neg h]
    have hcal2 : ¬ (B.calendarId = A.calendarId) := fun h2 => hcal h2.symm
    show dedupAux [] (List.filterMap _ [A] ++ pairConflicts _ [A]) = _
    simp only [pairConflicts, List.filterMap_cons, List.filterMap_nil, if_neg hcal2,
      List.append_nil]
    cases hc : detectConflictBetweenEvents B A (mergeConflictOptions o) with
    | none => simp [dedupAux]
    | some c => simp [dedupAux]

/-- C5 counterexample: with event A ending exactly when event B starts,
`detectConflictsForEvent(A, [B])` reports a travel-time conflict for the
pair but `detectConflictsForEvent(B, [A])` reports nothing, so the
operation is not symmetric in its two event arguments. -/
theorem c5_counterexample :
    ((detectConflictsForEvent ⟨"a", "A", 0, 3600000, "c1", false, "u"⟩
        [⟨"b", "B", 3600000, 7200000, "c2", false, "u"⟩] {}).map
      (fun c => (c.type, c.severity)) =
        [(ConflictType.travel_time, Severity.medium)]) ∧
    detectConflictsForEvent ⟨"b", "B", 3600000, 7200000, "c2", false, "u"⟩
        [⟨"a", "A", 0, 3600000, "c1", false, "u"⟩] {} = [] := by
  constructor <;> decide

/-- C5 (amended): `detectConflictsForEvent` is symmetric for pairs whose
intervals satisfy the overlap test: both call orders report exactly one
conflict for the pair, with the same type and the same severity.  The
back-to-back/travel-time rule, by contrast, only fires when the first
argument ends no later than the existing event starts. -/
theorem c5_amended (A B : Event) (o : ConflictDetectionOptions)
    (hid : A.id ≠ B.id) (hov : overlapCondition A B) :
    ∃ c1 c2,
      detectConflictsForEvent A [B] o = [c1] ∧
      detectConflictsForEvent B [A] o = [c2] ∧
      c1.type = c2.type ∧ c1.severity = c2.severity := by
  have hovBA := overlapCondition_symm hov
  have hid2 : ¬ (B.id = A.id) := fun h => hid h.symm
  have hid3 : ¬ (A.id = B.id) := hid
  have hA : detectConflictsForEvent A [B] o =
      [{ id := "conflict_" ++ A.id ++ "_" ++ B.id
         type := (classifyOverlap A B).1
         severity := (classifyOverlap A B).2
         primaryEvent := A
         conflictingEvent := B
         overlapDuration := some (overlapMinutes A B)
         description := generateConflictDescription A B (classifyOverlap A B).1
           (overlapMinutes A B)
         suggestions := generateConflictSuggestions A B (classifyOverlap A B).1
           (overlapMinutes A B) }] := by
    unfold detectConflictsForEvent detectConflictBetweenEvents checkOverlap
    simp only [List.filterMap_cons, List.filterMap_nil, if_neg hid2, if_pos hov]
  have hB : detectConflictsForEvent B [A] o =
      [{ id := "conflict_" ++ B.id ++ "_" ++ A.id
         type := (classifyOverlap B A).1
         severity := (classifyOverlap B A).2
         primaryEvent := B
         conflictingEvent := A
         overlapDuration := some (overlapMinutes B A)
         description := generateConflictDescription B A (classifyOverlap B A).1
           (overlapMinutes B A)
         suggestions := generateConflictSuggestions B A (classifyOverlap B A).1
           (overlapMinutes B A) }] := by
    unfold detectConflictsForEvent detectConflictBetweenEvents checkOverlap
    simp only [List.filterMap_cons, List.filterMap_nil, if_neg hid3, if_pos hovBA]
  exact ⟨_, _, hA, hB, by rw [classifyOverlap_symm A B], by rw [classifyOverlap_symm A B]⟩

/-- Witness for C5 (amended) at two concretely overlapping events. -/
theorem c5_witness :
    ∃ c1 c2,
      detectConflictsForEvent ⟨"a", "A", 0, 7200000, "c1", false, "u"⟩
        [⟨"b", "B", 3600000, 10800000, "c2", false, "u"⟩] {} = [c1] ∧
      detectConflictsForEvent ⟨"b", "B", 3600000, 10800000, "c2", false, "u"⟩
        [⟨"a", "A", 0, 7200000, "c1", false, "u"⟩] {} = [c2] ∧
      c1.type = c2.type ∧ c1.severity = c2.severity :=
  c5_amended ⟨"a", "A", 0, 7200000, "c1", false, "u"⟩
    ⟨"b", "B", 3600000, 10800000, "c2", false, "u"⟩ {} (by decide) (by decide)

/-- The overlap classification rule as the spec states it: exactly equal
intervals are a critical double booking; otherwise an overlap whose length
exceeds half the shorter duration is high, an overlap of more than 30
minutes is medium, and any other overlap is low. -/
def specOverlapClassification (A B : Event) : ConflictType × Severity :=
  if A.startTime = B.startTime ∧ A.endTime = B.endTime then
    (ConflictType.double_booking, Severity.critical)
  else if Q.ofInt (overlapMinutes A B) >
      Q.minOf (durationMinutes A) (durationMinutes B) * 0.5 then
    (ConflictType.overlap, Severity.high)
  else if overlapMinutes A B > 30 then
    (ConflictType.overlap, Severity.medium)
  else
    (ConflictType.overlap, Severity.low)

/-- C6: for any two events from different calendars whose intervals overlap
under the open-interval test, the full `detectConflicts` pipeline (sort,
pairwise check, deduplication) reports exactly one conflict for the pair,
typed and rated by the spec's classification cascade. -/
theorem c6_overlap_classification (A B : Event) (o : ConflictDetectionOptions)
    (hcal : A.calendarId ≠ B.calendarId)
    (hov : A.startTime < B.endTime ∧ B.startTime < A.endTime) :
    (detectConflicts [A, B] o).map (fun c => (c.type, c.severity)) =
      [specOverlapClassification A B] := by
  have hovC : overlapCondition A B := Or.inl ⟨hov.1, hov.2⟩
  have hovC2 : overlapCondition B A := overlapCondition_symm hovC
  have hspec : specOverlapClassification A B = classifyOverlap A B := rfl
  rw [detectConflicts_two A B o hcal]
  by_cases h : A.startTime ≤ B.startTime
  · rw [if_pos h, if_pos h]
    unfold detectConflictBetweenEvents checkOverlap
    rw [if_pos hovC]
    simp only [List.map_cons, List.map_nil, hspec, Prod.mk.eta]
  · rw [if_neg h, if_neg h]
    unfold detectConflictBetweenEvents checkOverlap
    rw [if_pos hovC2]
    simp only [List.map_cons, List.map_nil, hspec, classifyOverlap_symm A B, Prod.mk.eta]

/-- Witness for C6 at two identical-interval events from different
calendars: the pipeline classifies them as a critical double booking. -/
theorem c6_witness :
    (detectConflicts [⟨"a", "A", 0, 3600000, "c1", false, "u"⟩,
        ⟨"b", "B", 0, 3600000, "c2", false, "u"⟩] {}).map
      (fun c => (c.type, c.severity)) =
        [(ConflictType.double_booking, Severity.critical)] := by
  rw [c6_overlap_classification ⟨"a", "A", 0, 3600000, "c1", false, "u"⟩
    ⟨"b", "B", 0, 3600000, "c2", false, "u"⟩ {} (by decide) (by decide)]
  decide

/-- C7: for non-overlapping events from different calendars with the
back-to-back check enabled and a nonzero travel time, a gap in
`[0, travelTimeMinutes)` between the earlier event's end and the later
event's start yields a travel-time conflict whose severity is medium when
the gap is under 5 minutes (including exactly 0) and low otherwise. -/
theorem c7_travel_time (A B : Event) (o : ConflictDetectionOptions)
    (hcal : A.calendarId ≠ B.calendarId)
    (hwfA : A.startTime < A.endTime) (hwfB : B.startTime < B.endTime)
    (hgap : A.endTime ≤ B.startTime)
    (hbb : (mergeConflictOptions o).includeBackToBack = true)
    (htt : (mergeConflictOptions o).travelTimeMinutes ≠ 0)
    (hlt : timeBetween A B < Q.ofInt (mergeConflictOptions o).travelTimeMinutes) :
    (detectConflicts [A, B] o).map (fun c => (c.type, c.severity)) =
      [(ConflictType.travel_time,
        if timeBetween A B < 5 then Severity.medium else Severity.low)] := by
  have hAB : A.startTime ≤ B.startTime := le_of_lt (lt_of_lt_of_le hwfA hgap)
  have hnov : ¬ overlapCondition A B := by
    rintro (⟨h1, h2⟩ | ⟨h1, h2⟩ | ⟨h1, h2⟩) <;> omega
  have htb0 : (0 : Q) ≤ timeBetween A B := by
    show (0 : ℤ) * (1 * 60000) ≤ (B.startTime - A.endTime) * 1 * 1
    omega
  rw [detectConflicts_two A B o hcal, if_pos hAB, if_pos hAB]
  unfold detectConflictBetweenEvents
  rw [show checkOverlap A B = none from if_neg hnov]
  rw [if_pos ⟨hbb, htt⟩]
  unfold checkBackToBack
  rw [if_pos ⟨htb0, hlt⟩]
  simp only [List.map_cons, List.map_nil]
  by_cases heq : (timeBetween A B).eqv 0
  · have hz : (B.startTime - A.endTime) * 1 * 1 = (0 : ℤ) * (1 * 60000) := heq
    have h5 : timeBetween A B < 5 := by
      show (B.startTime - A.endTime) * 1 * 1 < (5 : ℤ) * (1 * 60000)
      omega
    rw [if_pos heq, if_pos h5]
  · rw [if_neg heq]

/-- Witness for C7: a 0-minute gap with the default options
(travelTimeMinutes = 15) classifies as travel_time / medium. -/
theorem c7_witness :
    (detectConflicts [⟨"a", "A", 0, 3600000, "c1", false, "u"⟩,
        ⟨"b", "B", 3600000, 7200000, "c2", false, "u"⟩] {}).map
      (fun c => (c.type, c.severity)) =
        [(ConflictType.travel_time, Severity.medium)] := by
  rw [c7_travel_time ⟨"a", "A", 0, 3600000, "c1", false, "u"⟩
    ⟨"b", "B", 3600000, 7200000, "c2", false, "u"⟩ {} (by decide) (by decide)
    (by decide) (by decide) (by decide) (by decide) (by decide)]
  decide

/-- Two conflicts concern the same unordered pair of event ids. -/
def samePair (c1 c2 : Conflict) : Prop :=
  (c1.primaryEvent.id = c2.primaryEvent.id ∧
    c1.conflictingEvent.id = c2.conflictingEvent.id) ∨
  (c1.primaryEvent.id = c2.conflictingEvent.id ∧
    c1.conflictingEvent.id = c2.primaryEvent.id)

theorem sortedPairKey_comm (a b : String) : sortedPairKey a b = sortedPairKey b a := by
  unfold sortedPairKey
  by_cases h : a ≤ b
  · by_cases h2 : b ≤ a
    · have : a = b := le_antisymm h h2
      subst this
      rfl
    · rw [if_pos h, if_neg h2]
  · have h2 : b ≤ a := le_of_not_le h
    rw [if_neg h, if_pos h2]

theorem samePair_key {c1 c2 : Conflict} (h : samePair c1 c2) :
    conflictKey c1 = conflictKey c2 := by
  unfold conflictKey
  rcases h with ⟨h1, h2⟩ | ⟨h1, h2⟩
  · rw [h1, h2]
  · rw [h1, h2, sortedPairKey_comm]

/-- Every conflict surviving `dedupAux` has a key outside `seen`, and the
survivors have pairwise distinct keys. -/
theorem dedupAux_spec (l : List Conflict) : ∀ seen : List String,
    (∀ c ∈ dedupAux seen l, conflictKey c ∉ seen) ∧
    (dedupAux seen l).Pairwise (fun a b => conflictKey a ≠ conflictKey b) := by
  induction l with
  | nil =>
    intro seen
    refine ⟨fun c hc => ?_, List.Pairwise.nil⟩
    cases hc
  | cons c r ih =>
    intro seen
    unfold dedupAux
    by_cases h : conflictKey c ∈ seen
    · rw [if_pos h]
      exact ih seen
    · rw [if_neg h]
      have spec := ih (conflictKey c :: seen)
      constructor
      · intro x hx
        rcases List.mem_cons.mp hx with rfl | hx2
        · exact h
        · intro hmem
          exact (spec.1 x hx2) (List.mem_cons_of_mem _ hmem)
      · refine List.Pairwise.cons ?_ spec.2
        intro x hx heq
        exact (spec.1 x hx) (heq ▸ List.mem_cons_self _ _)

/-- C8: the conflict list returned by `detectConflicts` never contains two
conflicts over the same unordered pair of event ids; and on a concrete pair
where both the overlap rule and the work/personal-separation rule fire
(a work event at 18:00-18:30 overlapping a personal event at 18:10-18:40,
with `workPersonalSeparation` enabled), exactly one conflict is produced,
the one from the overlap rule, which comes first in the precedence order
(severity high rather than the separation rule's medium). -/
theorem c8_dedup_per_pair :
    (∀ (events : List Event) (o : ConflictDetectionOptions),
      (detectConflicts events o).Pairwise (fun c1 c2 => ¬ samePair c1 c2)) ∧
    (detectConflicts [⟨"a", "A", 64800000, 66600000, "c1", true, "u"⟩,
        ⟨"b", "B", 65400000, 67200000, "c2", false, "u"⟩]
        { workPersonalSeparation := some true }).map
      (fun c => (c.type, c.severity)) = [(ConflictType.overlap, Severity.high)] := by
  constructor
  · intro events o
    unfold detectConflicts deduplicateConflicts
    refine List.Pairwise.imp ?_ (dedupAux_spec _ []).2
    intro a b hne hsame
    exact hne (samePair_key hsame)
  · decide

end Conflicts

namespace Avail

/-- The shared interval value type; times are absolute timestamps in
minutes.  The second field is named `stop` because `end` is a Lean keyword;
it is the source's `end`. -/
structure TimeSlot where
  start : ℤ
  stop : ℤ
deriving DecidableEq

/-- Working hours: start/end of day as (hour, minute) pairs parsed from the
source's "HH:mm" strings, plus the working weekdays (0 = Sunday). -/
structure WorkingHours where
  start : ℕ × ℕ
  stop : ℕ × ℕ
  days : List ℤ
deriving DecidableEq

structure AvailabilityOptions where
  workingHours : Option WorkingHours := none
  bufferMinutes : Option ℤ := none
  minMeetingDuration : Option ℤ := none
  maxMeetingDuration : Option ℤ := none

/-- The options after `{ ...this.defaultOptions, ...options }`; the default
options carry no working hours. -/
structure MergedAvailabilityOptions where
  workingHours : Option WorkingHours
  bufferMinutes : ℤ
  minMeetingDuration : ℤ
  maxMeetingDuration : ℤ

def mergeAvailabilityOptions (o : AvailabilityOptions) : MergedAvailabilityOptions :=
  { workingHours := o.workingHours
    bufferMinutes := o.bufferMinutes.getD 15
    minMeetingDuration := o.minMeetingDuration.getD 30
    maxMeetingDuration := o.maxMeetingDuration.getD 120 }

def toOptions (m : MergedAvailabilityOptions) : AvailabilityOptions :=
  { workingHours := m.workingHours
    bufferMinutes := some m.bufferMinutes
    minMeetingDuration := some m.minMeetingDuration
    maxMeetingDuration := some m.maxMeetingDuration }

def defaultWorkingHours : WorkingHours :=
  { start := (9, 0), stop := (17, 0), days := [1, 2, 3, 4, 5] }

structure UserAvailability where
  userId : String
  name : String
  email : String
  busySlots : List TimeSlot
  workingHours : WorkingHours
deriving DecidableEq

structure MeetingSuggestion where
  start : ℤ
  stop : ℤ
  duration : ℤ
  availableParticipants : List String
  confidence : Q
  score : Q
deriving DecidableEq

/-- Midnight of the day containing minute-timestamp `t`. -/
def dayFloor (t : ℤ) : ℤ := (t.fdiv 1440) * 1440

/-- JS `Date.getDay`: day of week, 0 = Sunday (the epoch day is a
Thursday). -/
def dayOfWeek (t : ℤ) : ℤ := ((t.fdiv 1440) + 4) % 7

/-- `parseTimeOnDate`: `setHours(hours, minutes, 0, 0)` on the given day. -/
def parseTimeOnDate (hm : ℕ × ℕ) (date : ℤ) : ℤ :=
  dayFloor date + (hm.1 : ℤ) * 60 + (hm.2 : ℤ)

/-- The filter of `findFreeSlotsInDay`: date-fns `isWithinInterval` is
inclusive on both ends, applied to the slot's start or end. -/
def touches (s : TimeSlot) (dayStart dayEnd : ℤ) : Prop :=
  (dayStart ≤ s.start ∧ s.start ≤ dayEnd) ∨ (dayStart ≤ s.stop ∧ s.stop ≤ dayEnd)

instance (s : TimeSlot) (dayStart dayEnd : ℤ) : Decidable (touches s dayStart dayEnd) := by
  unfold touches
  infer_instance

/-- Comparison by start time, the sort key of `findFreeSlotsInDay`. -/
def slotLE (a b : TimeSlot) : Prop := a.start ≤ b.start

instance : DecidableRel slotLE := fun a b =>
  inferInstanceAs (Decidable (a.start ≤ b.start))

instance : IsTotal TimeSlot slotLE := ⟨fun a b => le_total a.start b.start⟩

instance : IsTrans TimeSlot slotLE := ⟨fun _ _ _ h1 h2 => le_trans h1 h2⟩

/-- The middle loop of `findFreeSlotsInDay`: for each consecutive pair of
busy slots, emit the buffered gap when it is nonempty. -/
def gapsBetween (buffer : ℤ) : List TimeSlot → List TimeSlot
  | a :: b :: r =>
      (if a.stop + buffer < b.start - buffer then [⟨a.stop + buffer, b.start - buffer⟩]
       else []) ++ gapsBetween buffer (b :: r)
  | _ => []

/-- The body of `findFreeSlotsInDay` after filtering and sorting: the slot
before the first busy slot, the gaps between consecutive busy slots, and
the slot after the last busy slot; an empty busy list frees the whole
window. -/
def freeFromSorted (dayStart dayEnd buffer : ℤ) : List TimeSlot → List TimeSlot
  | [] => [⟨dayStart, dayEnd⟩]
  | first :: rest =>
      (if dayStart < first.start ∧ dayStart < first.start - buffer then
        [⟨dayStart, first.start - buffer⟩]
       else []) ++
      gapsBetween buffer (first :: rest) ++
      (let last := (first :: rest).getLast (List.cons_ne_nil first rest)
       if last.stop + buffer < dayEnd then [⟨last.stop + buffer, dayEnd⟩] else [])

/-- `AvailabilityCalculator.findFreeSlotsInDay`. -/
def findFreeSlotsInDay (busySlots : List TimeSlot) (dayStart dayEnd buffer : ℤ) :
    List TimeSlot :=
  freeFromSorted dayStart dayEnd buffer
    (List.insertionSort slotLE
      (busySlots.filter fun s => decide (touches s dayStart dayEnd)))

/-- Structural worker for `dayList`; the fuel is an upper bound on the
number of iterations, so the loop never truncates. -/
def dayListFuel : ℕ → ℤ → ℤ → List ℤ
  | 0, _, _ => []
  | Nat.succ f, cur, endD =>
      if cur ≤ endD then cur :: dayListFuel f (cur + 1440) endD else []

/-- The day iteration `while (currentDate <= endDate) ... addDays(1)`.  The
fuel `(endD + 1 - cur).toNat` dominates the iteration count (each step
advances `cur` by 1440 > 1), so this equals the unbounded loop. -/
def dayList (cur endD : ℤ) : List ℤ :=
  dayListFuel (endD + 1 - cur).toNat cur endD

/-- The per-user day loop of `calculateAvailability` (the source reads
`user.workingHours || defaultWorkingHours`, but `workingHours` is a
required field). -/
def userFreeSlots (user : UserAvailability) (startDate endDate buffer : ℤ) :
    List TimeSlot :=
  (dayList startDate endDate).flatMap fun d =>
    if (user.workingHours.days).contains (dayOfWeek d) then
      findFreeSlotsInDay user.busySlots
        (parseTimeOnDate user.workingHours.start d)
        (parseTimeOnDate user.workingHours.stop d) buffer
    else []

/-- `AvailabilityCalculator.calculateAvailability`; the result object keyed
by userId is modelled as an association list (`opts.bufferMinutes || 0` is
the identity on the merged options, whose buffer is always a number). -/
def calculateAvailability (users : List UserAvailability) (startDate endDate : ℤ)
    (options : AvailabilityOptions) : List (String × List TimeSlot) :=
  let opts := mergeAvailabilityOptions options
  users.map fun u => (u.userId, userFreeSlots u startDate endDate opts.bufferMinutes)

/-- JS object indexing `result[userId]` with last-write-wins assignment. -/
def jsLookup (m : List (String × List TimeSlot)) (k : String) : Option (List TimeSlot) :=
  m.foldl (fun acc p => if p.1 = k then some p.2 else acc) none

/-- Structural worker for `slotStarts`. -/
def slotStartsFuel : ℕ → ℤ → ℤ → ℤ → List TimeSlot
  | 0, _, _, _ => []
  | Nat.succ f, slotStart, dayEnd, duration =>
      if slotStart + duration ≤ dayEnd then
        ⟨slotStart, slotStart + duration⟩ :: slotStartsFuel f (slotStart + 30) dayEnd duration
      else []

/-- The inner slot loop of `generateTimeSlots`:
`while (addMinutes(slotStart, duration) <= dayEnd)` stepping by the fixed
30-minute interval.  The fuel dominates the iteration count (each step
advances `slotStart` by 30 > 1), so this equals the unbounded loop. -/
def slotStarts (slotStart dayEnd duration : ℤ) : List TimeSlot :=
  slotStartsFuel (dayEnd - duration + 1 - slotStart).toNat slotStart dayEnd duration

/-- `AvailabilityCalculator.generateTimeSlots`. -/
def generateTimeSlots (startDate endDate duration : ℤ)
    (options : MergedAvailabilityOptions) : List TimeSlot :=
  let workingHours := options.workingHours.getD defaultWorkingHours
  (dayList startDate endDate).flatMap fun d =>
    if workingHours.days.contains (dayOfWeek d) then
      slotStarts (parseTimeOnDate workingHours.start d)
        (parseTimeOnDate workingHours.stop d) duration
    else []

/-- `AvailabilityCalculator.isSlotAvailable`: the candidate slot is fully
contained in some free slot. -/
def isSlotAvailable (slot : TimeSlot) (freeSlots : List TimeSlot) : Bool :=
  freeSlots.any fun f => decide (f.start ≤ slot.start) && decide (slot.stop ≤ f.stop)

/-- `AvailabilityCalculator.calculateSlotScore`. -/
def calculateSlotScore (slot : TimeSlot) (availableCount totalCount : ℕ) : Q :=
  let score : Q := Q.ofInt (availableCount : ℤ) / Q.ofInt (totalCount : ℤ)
  let hour := (slot.start.fdiv 60) % 24
  let minute := slot.start % 60
  let score := if minute = 0 then score * 1.2
    else if minute = 30 then score * 1.1 else score
  let score := if (9 ≤ hour ∧ hour ≤ 11) ∨ (13 ≤ hour ∧ hour ≤ 16) then score * 1.3
    else score
  let score := if hour < 9 ∨ 16 < hour then score * 0.9 else score
  let score := if hour = 13 then score * 0.95 else score
  let score := if 17 ≤ hour then score * 0.8 else score
  score

/-- `AvailabilityCalculator.suggestMeetingTimes`: candidates that reach the
60% quorum are scored, sorted by score descending (JS sort is stable), and
truncated to the top 10. -/
def suggestMeetingTimes (users : List UserAvailability) (duration : ℤ)
    (startDate endDate : ℤ) (options : AvailabilityOptions) : List MeetingSuggestion :=
  let opts := mergeAvailabilityOptions options
  let userAvailabilities := calculateAvailability users startDate endDate (toOptions opts)
  let minParticipants := jsCeil (Q.ofInt (users.length : ℤ) * 0.6)
  let timeSlots := generateTimeSlots startDate endDate duration opts
  let suggestions := timeSlots.filterMap fun slot =>
    let availableUsers := (users.filter fun u =>
      isSlotAvailable slot ((jsLookup userAvailabilities u.userId).getD [])).map
        fun u => u.userId
    if minParticipants ≤ (availableUsers.length : ℤ) then
      some { start := slot.start
             stop := slot.stop
             duration := duration
             availableParticipants := availableUsers
             confidence := Q.ofInt (availableUsers.length : ℤ) /
               Q.ofInt (users.length : ℤ)
             score := calculateSlotScore slot availableUsers.length users.length }
    else none
  (List.insertionSort (fun a b => b.score ≤ a.score) suggestions).take 10

/-- Open-interval overlap of two time slots. -/
def slotsOverlap (a b : TimeSlot) : Prop := a.start < b.stop ∧ b.start < a.stop

instance (a b : TimeSlot) : Decidable (slotsOverlap a b) := by
  unfold slotsOverlap
  infer_instance

/-- Two slots do not overlap (one ends before the other starts). -/
def nonOverlap (a b : TimeSlot) : Prop := a.stop ≤ b.start ∨ b.stop ≤ a.start

instance (a b : TimeSlot) : Decidable (nonOverlap a b) := by
  unfold nonOverlap
  infer_instance

theorem nonOverlap_symm : Symmetric nonOverlap := fun _ _ h => h.symm

/-- Membership in the filtered, sorted busy list of `findFreeSlotsInDay`. -/
theorem mem_sortedBusy {busySlots : List TimeSlot} {dayStart dayEnd : ℤ} {b : TimeSlot} :
    b ∈ List.insertionSort slotLE
        (busySlots.filter fun s => decide (touches s dayStart dayEnd)) ↔
      b ∈ busySlots ∧ touches b dayStart dayEnd := by
  rw [(List.perm_insertionSort slotLE _).mem_iff]
  simp [List.mem_filter]

theorem sorted_sortedBusy (busySlots : List TimeSlot) (dayStart dayEnd : ℤ) :
    (List.insertionSort slotLE
      (busySlots.filter fun s => decide (touches s dayStart dayEnd))).Sorted slotLE :=
  List.sorted_insertionSort slotLE _

theorem pairwise_sortedBusy (busySlots : List TimeSlot) (dayStart dayEnd : ℤ)
    (h : busySlots.Pairwise nonOverlap) :
    (List.insertionSort slotLE
      (busySlots.filter fun s => decide (touches s dayStart dayEnd))).Pairwise nonOverlap :=
  ((List.perm_insertionSort slotLE _).pairwise_iff fun hxy => Or.symm hxy).mpr
    (h.sublist (List.filter_sublist _))

/-- Every gap emitted by the middle loop is guarded by its own
nonemptiness test. -/
theorem gapsBetween_wf (buffer : ℤ) :
    ∀ l : List TimeSlot, ∀ g ∈ gapsBetween buffer l, g.start < g.stop := by
  intro l
  induction l with
  | nil => intro g hg; cases hg
  | cons a tail ih =>
    cases tail with
    | nil => intro g hg; cases hg
    | cons b r =>
      intro g hg
      simp only [gapsBetween] at hg
      rcases List.mem_append.mp hg with h1 | h2
      · by_cases hc : a.stop + buffer < b.start - buffer
        · rw [if_pos hc] at h1
          rcases List.mem_singleton.mp h1 with rfl
          exact hc
        · rw [if_neg hc] at h1
          cases h1
      · exact ih g h2

/-- Every slot emitted by `freeFromSorted` over a nonempty working window
satisfies `start < end`. -/
theorem freeFromSorted_wf (dayStart dayEnd buffer : ℤ) (hlt : dayStart < dayEnd)
    (l : List TimeSlot) : ∀ s ∈ freeFromSorted dayStart dayEnd buffer l, s.start < s.stop := by
  cases l with
  | nil =>
    intro s hs
    rcases List.mem_singleton.mp hs with rfl
    exact hlt
  | cons first rest =>
    intro s hs
    simp only [freeFromSorted] at hs
    rcases List.mem_append.mp hs with h12 | h3
    · rcases List.mem_append.mp h12 with h1 | h2
      · by_cases hc : dayStart < first.start ∧ dayStart < first.start - buffer
        · rw [if_pos hc] at h1
          rcases List.mem_singleton.mp h1 with rfl
          exact hc.2
        · rw [if_neg hc] at h1
          cases h1
      · exact gapsBetween_wf buffer (first :: rest) s h2
    · by_cases hc : ((first :: rest).getLast (List.cons_ne_nil first rest)).stop + buffer <
          dayEnd
      · rw [if_pos hc] at h3
        rcases List.mem_singleton.mp h3 with rfl
        exact hc
      · rw [if_neg hc] at h3
        cases h3

/-- A well-formed busy slot touching a degenerate window `[d, d]` straddles
`d`. -/
theorem touches_degenerate {b : TimeSlot} {d : ℤ} (h : touches b d d)
    (hwf : b.start < b.stop) : b.start ≤ d ∧ d ≤ b.stop := by
  rcases h with ⟨h1, h2⟩ | ⟨h1, h2⟩ <;> omega

theorem gapsBetween_nil_of_degenerate (buffer d : ℤ) (hbuf : 0 ≤ buffer) :
    ∀ l : List TimeSlot, (∀ b ∈ l, b.start ≤ d ∧ d ≤ b.stop) →
      gapsBetween buffer l = [] := by
  intro l
  induction l with
  | nil => intro _; rfl
  | cons a tail ih =>
    cases tail with
    | nil => intro _; rfl
    | cons b r =>
      intro hstraddle
      have ha := hstraddle a (List.mem_cons_self a _)
      have hb := hstraddle b (List.mem_cons_of_mem a (List.mem_cons_self b r))
      simp only [gapsBetween]
      rw [if_neg (by omega), List.nil_append]
      exact ih fun x hx => hstraddle x (List.mem_cons_of_mem a hx)

/-- C4 (amended): over well-formed busy slots and a nonnegative buffer,
every free slot of a nonempty working window satisfies `start < end`; a
zero-length window returns no free slots when some busy slot has an
endpoint inside it, but returns the single degenerate window slot when no
busy slot does. -/
theorem c4_amended (busySlots : List TimeSlot) (dayStart dayEnd buffer : ℤ)
    (hwf : ∀ b ∈ busySlots, b.start < b.stop) (hbuf : 0 ≤ buffer) :
    (dayStart < dayEnd →
      ∀ s ∈ findFreeSlotsInDay busySlots dayStart dayEnd buffer, s.start < s.stop) ∧
    (dayStart = dayEnd →
      findFreeSlotsInDay busySlots dayStart dayEnd buffer =
        if busySlots.filter (fun s => decide (touches s dayStart dayEnd)) = [] then
          [⟨dayStart, dayEnd⟩]
        else []) := by
  constructor
  · intro hlt
    exact freeFromSorted_wf dayStart dayEnd buffer hlt _
  · intro hdeg
    subst hdeg
    by_cases hfil : busySlots.filter (fun s => decide (touches s dayStart dayStart)) = []
    · rw [if_pos hfil]
      unfold findFreeSlotsInDay
      rw [hfil]
      rfl
    · rw [if_neg hfil]
      unfold findFreeSlotsInDay
      have hne : List.insertionSort slotLE
          (busySlots.filter fun s => decide (touches s dayStart dayStart)) ≠ [] := by
        intro h
        exact hfil ((List.perm_insertionSort slotLE _).symm.trans (h ▸ List.Perm.refl _)).eq_nil
      cases hL : List.insertionSort slotLE
          (busySlots.filter fun s => decide (touches s dayStart dayStart)) with
      | nil => exact absurd hL hne
      | cons first rest =>
        have hmemL : ∀ b ∈ first :: rest, b.start ≤ dayStart ∧ dayStart ≤ b.stop := by
          intro b hb
          have := mem_sortedBusy.mp (hL ▸ hb)
          exact touches_degenerate this.2 (hwf b this.1)
        have hfirst := hmemL first (List.mem_cons_self first rest)
        have hlast := hmemL ((first :: rest).getLast (List.cons_ne_nil first rest))
          (List.getLast_mem _)
        simp only [freeFromSorted]
        rw [if_neg (by omega),
          gapsBetween_nil_of_degenerate buffer dayStart hbuf (first :: rest) hmemL,
          if_neg (by omega)]
        rfl

/-- C4 counterexample: a user whose working window is zero-length (09:00 to
09:00) and who has no busy slots gets the degenerate slot [540, 540] back
from the availability engine, which violates both the `start < end`
invariant and the claimed empty result for zero-length windows. -/
theorem c4_counterexample :
    (⟨540, 540⟩ : TimeSlot) ∈
      (jsLookup (calculateAvailability [⟨"u", "", "", [], ⟨(9, 0), (9, 0), [4]⟩⟩] 0 0 {})
        "u").getD [] ∧
    ¬ (⟨540, 540⟩ : TimeSlot).start < (⟨540, 540⟩ : TimeSlot).stop := by
  constructor <;> decide

/-- Witness for C4 (amended): with a busy slot [600, 660] in the 09:00 to
17:00 window and buffer 15, the free slot [540, 585] is well-formed. -/
theorem c4_witness : (⟨540, 585⟩ : TimeSlot).start < (⟨540, 585⟩ : TimeSlot).stop :=
  (c4_amended [⟨600, 660⟩] 540 1020 15 (by decide) (by decide)).1 (by decide)
    ⟨540, 585⟩ (by decide)

/-- In a start-sorted, pairwise non-overlapping list of well-formed slots,
every slot ends no later than the last slot. -/
theorem stop_le_getLast :
    ∀ (l : List TimeSlot) (h : l ≠ []), l.Sorted slotLE → l.Pairwise nonOverlap →
      (∀ b ∈ l, b.start < b.stop) → ∀ b ∈ l, b.stop ≤ (l.getLast h).stop := by
  intro l
  induction l with
  | nil => intro h; exact absurd rfl h
  | cons a tail ih =>
    intro h hs hp hwf b hb
    cases tail with
    | nil =>
      rcases List.mem_singleton.mp hb with rfl
      exact le_refl _
    | cons c r =>
      rw [List.getLast_cons (List.cons_ne_nil c r)]
      rcases List.mem_cons.mp hb with rfl | hb2
      · have hglmem := List.getLast_mem (List.cons_ne_nil c r)
        have hnov : nonOverlap b ((c :: r).getLast (List.cons_ne_nil c r)) :=
          (List.pairwise_cons.mp hp).1 _ hglmem
        have hsort : slotLE b ((c :: r).getLast (List.cons_ne_nil c r)) :=
          (List.sorted_cons.mp hs).1 _ hglmem
        have hwfgl := hwf _ (List.mem_cons_of_mem b hglmem)
        unfold slotLE at hsort
        rcases hnov with h1 | h1 <;> omega
      · exact ih (List.cons_ne_nil c r) (List.sorted_cons.mp hs).2
          (List.pairwise_cons.mp hp).2 (fun x hx => hwf x (List.mem_cons_of_mem a hx)) b hb2

/-- Every emitted gap starts at some busy slot's end plus the buffer and
stops at some busy slot's start minus the buffer. -/
theorem gapsBetween_shape (buffer : ℤ) :
    ∀ l : List TimeSlot, ∀ g ∈ gapsBetween buffer l,
      ∃ x ∈ l, ∃ y ∈ l, g.start = x.stop + buffer ∧ g.stop = y.start - buffer := by
  intro l
  induction l with
  | nil => intro g hg; cases hg
  | cons a tail ih =>
    cases tail with
    | nil => intro g hg; cases hg
    | cons c r =>
      intro g hg
      simp only [gapsBetween] at hg
      rcases List.mem_append.mp hg with h1 | h2
      · by_cases hc : a.stop + buffer < c.start - buffer
        · rw [if_pos hc] at h1
          rcases List.mem_singleton.mp h1 with rfl
          exact ⟨a, List.mem_cons_self a _, c,
            List.mem_cons_of_mem a (List.mem_cons_self c r), rfl, rfl⟩
        · rw [if_neg hc] at h1
          cases h1
      · obtain ⟨x, hx, y, hy, hgs, hgt⟩ := ih g h2
        exact ⟨x, List.mem_cons_of_mem a hx, y, List.mem_cons_of_mem a hy, hgs, hgt⟩

/-- No emitted gap overlaps any busy slot of the sorted list it was
computed from. -/
theorem gapsBetween_disjoint (buffer : ℤ) (hbuf : 0 ≤ buffer) :
    ∀ l : List TimeSlot, l.Sorted slotLE → l.Pairwise nonOverlap →
      (∀ b ∈ l, b.start < b.stop) →
      ∀ g ∈ gapsBetween buffer l, ∀ b ∈ l, ¬ slotsOverlap g b := by
  intro l
  induction l with
  | nil => intro _ _ _ g hg; cases hg
  | cons a tail ih =>
    cases tail with
    | nil => intro _ _ _ g hg; cases hg
    | cons c r =>
      intro hs hp hwf g hg b hb
      simp only [gapsBetween] at hg
      rcases List.mem_append.mp hg with h1 | h2
      · by_cases hc : a.stop + buffer < c.start - buffer
        · rw [if_pos hc] at h1
          rcases List.mem_singleton.mp h1 with rfl
          rcases List.mem_cons.mp hb with rfl | hb2
          · rintro ⟨o1, o2⟩
            dsimp only at o1 o2
            omega
          · have hcb : c.start ≤ b.start := by
              rcases List.mem_cons.mp hb2 with rfl | hb3
              · exact le_refl _
              · exact (List.sorted_cons.mp (List.sorted_cons.mp hs).2).1 b hb3
            rintro ⟨o1, o2⟩
            dsimp only at o1 o2
            omega
        · rw [if_neg hc] at h1
          cases h1
      · rcases List.mem_cons.mp hb with rfl | hb2
        · obtain ⟨x, hx, y, hy, hgs, hgt⟩ := gapsBetween_shape buffer (c :: r) g h2
          have hnovax : nonOverlap b x := (List.pairwise_cons.mp hp).1 x hx
          have hsortax : slotLE b x := (List.sorted_cons.mp hs).1 x hx
          have hwfx := hwf x (List.mem_cons_of_mem b hx)
          have hwfa := hwf b (List.mem_cons_self b _)
          unfold slotLE at hsortax
          rintro ⟨o1, o2⟩
          rw [hgs] at o1
          rcases hnovax with h1 | h1 <;> omega
        · exact ih (List.sorted_cons.mp hs).2 (List.pairwise_cons.mp hp).2
            (fun x hx => hwf x (List.mem_cons_of_mem a hx)) g h2 b hb2

/-- With a zero buffer, every instant at or after the first busy slot's
start is covered by a busy slot, by an emitted gap, or lies at or after the
last busy slot's end. -/
theorem gapsBetween_cover :
    ∀ (l : List TimeSlot) (h : l ≠ []) (t : ℤ), (l.head h).start ≤ t →
      (∃ b ∈ l, b.start ≤ t ∧ t < b.stop) ∨
      (∃ g ∈ gapsBetween 0 l, g.start ≤ t ∧ t < g.stop) ∨
      (l.getLast h).stop ≤ t := by
  intro l
  induction l with
  | nil => intro h; exact absurd rfl h
  | cons a tail ih =>
    intro h t ht
    cases tail with
    | nil =>
      by_cases h1 : t < a.stop
      · exact Or.inl ⟨a, List.mem_cons_self a _, ht, h1⟩
      · refine Or.inr (Or.inr ?_)
        have hgl : ([a].getLast h) = a := rfl
        rw [hgl]
        omega
    | cons c r =>
      by_cases h1 : t < a.stop
      · exact Or.inl ⟨a, List.mem_cons_self a _, ht, h1⟩
      · by_cases h2 : t < c.start
        · refine Or.inr (Or.inl ⟨⟨a.stop + 0, c.start - 0⟩, ?_,
            by dsimp only; omega, by dsimp only; omega⟩)
          simp only [gapsBetween]
          refine List.mem_append.mpr (Or.inl ?_)
          rw [if_pos (by omega)]
          exact List.mem_singleton.mpr rfl
        · have hct : c.start ≤ t := by omega
          rcases ih (List.cons_ne_nil c r) t hct with hbusy | hgap | hlast
          · obtain ⟨b, hbm, hcov⟩ := hbusy
            exact Or.inl ⟨b, List.mem_cons_of_mem a hbm, hcov⟩
          · obtain ⟨g, hgm, hcov⟩ := hgap
            refine Or.inr (Or.inl ⟨g, ?_, hcov⟩)
            simp only [gapsBetween]
            exact List.mem_append.mpr (Or.inr hgm)
          · refine Or.inr (Or.inr ?_)
            rw [List.getLast_cons (List.cons_ne_nil c r)]
            exact hlast

/-- No free slot emitted by `freeFromSorted` overlaps any busy slot of the
sorted list. -/
theorem freeFromSorted_disjoint (dayStart dayEnd buffer : ℤ) (hbuf : 0 ≤ buffer)
    (l : List TimeSlot) (hsort : l.Sorted slotLE) (hp : l.Pairwise nonOverlap)
    (hwf : ∀ b ∈ l, b.start < b.stop) :
    ∀ s ∈ freeFromSorted dayStart dayEnd buffer l, ∀ b ∈ l, ¬ slotsOverlap s b := by
  cases l with
  | nil => intro s _ b hb; cases hb
  | cons first rest =>
    intro s hsmem b hb
    simp only [freeFromSorted] at hsmem
    rcases List.mem_append.mp hsmem with h12 | h3
    · rcases List.mem_append.mp h12 with h1 | h2
      · by_cases hc : dayStart < first.start ∧ dayStart < first.start - buffer
        · rw [if_pos hc] at h1
          rcases List.mem_singleton.mp h1 with rfl
          have hfb : first.start ≤ b.start := by
            rcases List.mem_cons.mp hb with rfl | hb2
            · exact le_refl _
            · exact (List.sorted_cons.mp hsort).1 b hb2
          rintro ⟨o1, o2⟩
          dsimp only at o1 o2
          omega
        · rw [if_neg hc] at h1
          cases h1
      · exact gapsBetween_disjoint buffer hbuf (first :: rest) hsort hp hwf s h2 b hb
    · by_cases hc : ((first :: rest).getLast (List.cons_ne_nil first rest)).stop + buffer <
          dayEnd
      · rw [if_pos hc] at h3
        rcases List.mem_singleton.mp h3 with rfl
        have hble := stop_le_getLast (first :: rest) (List.cons_ne_nil first rest)
          hsort hp hwf b hb
        rintro ⟨o1, o2⟩
        dsimp only at o1 o2
        omega
      · rw [if_neg hc] at h3
        cases h3

/-- With a zero buffer, every instant of the working window is covered by a
free slot or by a busy slot of the sorted list. -/
theorem freeFromSorted_cover (dayStart dayEnd : ℤ) (l : List TimeSlot) (t : ℤ)
    (h1 : dayStart ≤ t) (h2 : t < dayEnd) :
    (∃ s ∈ freeFromSorted dayStart dayEnd 0 l, s.start ≤ t ∧ t < s.stop) ∨
    (∃ b ∈ l, b.start ≤ t ∧ t < b.stop) := by
  cases l with
  | nil => exact Or.inl ⟨⟨dayStart, dayEnd⟩, List.mem_singleton.mpr rfl, h1, h2⟩
  | cons first rest =>
    by_cases hf : t < first.start
    · refine Or.inl ⟨⟨dayStart, first.start - 0⟩, ?_, h1, by dsimp only; omega⟩
      simp only [freeFromSorted]
      refine List.mem_append.mpr (Or.inl (List.mem_append.mpr (Or.inl ?_)))
      rw [if_pos ⟨by omega, by omega⟩]
      exact List.mem_singleton.mpr rfl
    · have hft : first.start ≤ t := by omega
      rcases gapsBetween_cover (first :: rest) (List.cons_ne_nil first rest) t hft with
        hbusy | hgap | hlast
      · exact Or.inr hbusy
      · obtain ⟨g, hgm, hcov⟩ := hgap
        refine Or.inl ⟨g, ?_, hcov⟩
        simp only [freeFromSorted]
        exact List.mem_append.mpr (Or.inl (List.mem_append.mpr (Or.inr hgm)))
      · refine Or.inl ⟨⟨((first :: rest).getLast (List.cons_ne_nil first rest)).stop + 0,
          dayEnd⟩, ?_, by dsimp only; omega, h2⟩
        simp only [freeFromSorted]
        refine List.mem_append.mpr (Or.inr ?_)
        rw [if_pos (by omega)]
        exact List.mem_singleton.mpr rfl

/-- Every free slot lies inside the working window, provided each busy slot
of the sorted list starts no later than the window's end and stops no
earlier than its start. -/
theorem freeFromSorted_bounds (dayStart dayEnd buffer : ℤ) (hbuf : 0 ≤ buffer)
    (hdd : dayStart ≤ dayEnd) (l : List TimeSlot)
    (hbound : ∀ b ∈ l, b.start ≤ dayEnd ∧ dayStart ≤ b.stop) :
    ∀ s ∈ freeFromSorted dayStart dayEnd buffer l,
      dayStart ≤ s.start ∧ s.stop ≤ dayEnd := by
  cases l with
  | nil =>
    intro s hsmem
    rcases List.mem_singleton.mp hsmem with rfl
    exact ⟨le_refl _, le_refl _⟩
  | cons first rest =>
    intro s hsmem
    simp only [freeFromSorted] at hsmem
    rcases List.mem_append.mp hsmem with h12 | h3
    · rcases List.mem_append.mp h12 with h1 | h2
      · by_cases hc : dayStart < first.start ∧ dayStart < first.start - buffer
        · rw [if_pos hc] at h1
          rcases List.mem_singleton.mp h1 with rfl
          have := hbound first (List.mem_cons_self first rest)
          constructor
          · exact le_refl _
          · dsimp only
            omega
        · rw [if_neg hc] at h1
          cases h1
      · obtain ⟨x, hx, y, hy, hgs, hgt⟩ := gapsBetween_shape buffer (first :: rest) s h2
        have hbx := hbound x hx
        have hby := hbound y hy
        constructor
        · rw [hgs]; omega
        · rw [hgt]; omega
    · by_cases hc : ((first :: rest).getLast (List.cons_ne_nil first rest)).stop + buffer <
          dayEnd
      · rw [if_pos hc] at h3
        rcases List.mem_singleton.mp h3 with rfl
        have := hbound _ (List.getLast_mem (List.cons_ne_nil first rest))
        constructor
        · dsimp only
          omega
        · exact le_refl _
      · rw [if_neg hc] at h3
        cases h3

/-- C3 counterexample: a busy slot [0, 100000] strictly covering the
working window [540, 1020] has neither endpoint inside the window, so the
endpoint filter drops it and the whole window is returned as a single free
slot, which overlaps that busy slot, even though the busy-slot set is
well-formed and pairwise non-overlapping. -/
theorem c3_counterexample :
    findFreeSlotsInDay [⟨0, 100000⟩] 540 1020 15 = [⟨540, 1020⟩] ∧
    slotsOverlap ⟨540, 1020⟩ ⟨0, 100000⟩ ∧
    ([⟨0, 100000⟩] : List TimeSlot).Pairwise nonOverlap ∧
    (∀ b ∈ ([⟨0, 100000⟩] : List TimeSlot), b.start < b.stop) := by
  refine ⟨by decide, by decide, ?_, by decide⟩
  simp

/-- C3 (amended): over well-formed, pairwise non-overlapping busy slots and
a nonnegative buffer, (i) no returned free slot overlaps any busy slot with
an endpoint inside the working window (a busy slot strictly covering the
window is dropped by the filter and not protected), (ii) with a zero
buffer, the free slots together with the window-touching busy slots cover
every instant of the window, and (iii) every free slot lies inside the
window. -/
theorem c3_amended (busySlots : List TimeSlot) (dayStart dayEnd buffer : ℤ)
    (hbuf : 0 ≤ buffer) (hwf : ∀ b ∈ busySlots, b.start < b.stop)
    (hdisj : busySlots.Pairwise nonOverlap) :
    (∀ s ∈ findFreeSlotsInDay busySlots dayStart dayEnd buffer,
      ∀ b ∈ busySlots, touches b dayStart dayEnd → ¬ slotsOverlap s b) ∧
    (buffer = 0 → ∀ t : ℤ, dayStart ≤ t → t < dayEnd →
      (∃ s ∈ findFreeSlotsInDay busySlots dayStart dayEnd buffer,
        s.start ≤ t ∧ t < s.stop) ∨
      (∃ b ∈ busySlots, touches b dayStart dayEnd ∧ b.start ≤ t ∧ t < b.stop)) ∧
    (dayStart ≤ dayEnd →
      ∀ s ∈ findFreeSlotsInDay busySlots dayStart dayEnd buffer,
        dayStart ≤ s.start ∧ s.stop ≤ dayEnd) := by
  have hsorted := sorted_sortedBusy busySlots dayStart dayEnd
  have hpairw := pairwise_sortedBusy busySlots dayStart dayEnd hdisj
  have hwfL : ∀ b ∈ List.insertionSort slotLE
      (busySlots.filter fun s => decide (touches s dayStart dayEnd)), b.start < b.stop :=
    fun b hb => hwf b (mem_sortedBusy.mp hb).1
  refine ⟨?_, ?_, ?_⟩
  · intro s hsmem b hb htouch
    exact freeFromSorted_disjoint dayStart dayEnd buffer hbuf _ hsorted hpairw hwfL
      s hsmem b (mem_sortedBusy.mpr ⟨hb, htouch⟩)
  · intro h0 t h1 h2
    subst h0
    rcases freeFromSorted_cover dayStart dayEnd
        (List.insertionSort slotLE
          (busySlots.filter fun s => decide (touches s dayStart dayEnd))) t h1 h2 with
      hfree | hbusy
    · exact Or.inl hfree
    · obtain ⟨b, hbL, hcov⟩ := hbusy
      have hm := mem_sortedBusy.mp hbL
      exact Or.inr ⟨b, hm.1, hm.2, hcov⟩
  · intro hdd s hsmem
    refine freeFromSorted_bounds dayStart dayEnd buffer hbuf hdd _ ?_ s hsmem
    intro b hb
    have hm := mem_sortedBusy.mp hb
    have hwfb := hwf b hm.1
    rcases hm.2 with ⟨t1, t2⟩ | ⟨t1, t2⟩ <;> exact ⟨by omega, by omega⟩

/-- Witness for C3 (amended): with busy slot [600, 660] in the window
[540, 1020] and buffer 15, the returned free slot [540, 585] does not
overlap the busy slot. -/
theorem c3_witness : ¬ slotsOverlap ⟨540, 585⟩ ⟨600, 660⟩ :=
  (c3_amended [⟨600, 660⟩] 540 1020 15 (by decide) (by decide) (by simp)).1
    ⟨540, 585⟩ (by decide) ⟨600, 660⟩ (by decide) (by decide)

/-- C9: every suggestion returned by `suggestMeetingTimes` reached the
quorum check: at least `ceil(0.6 × |users|)` participants are available. -/
theorem c9_quorum (users : List UserAvailability) (duration startDate endDate : ℤ)
    (options : AvailabilityOptions) (s : MeetingSuggestion)
    (hs : s ∈ suggestMeetingTimes users duration startDate endDate options) :
    jsCeil (Q.ofInt (users.length : ℤ) * 0.6) ≤ (s.availableParticipants.length : ℤ) := by
  simp only [suggestMeetingTimes] at hs
  have hs2 := (List.take_sublist 10 _).subset hs
  have hs3 :=
    (List.perm_insertionSort (fun a b : MeetingSuggestion => b.score ≤ a.score) _).subset hs2
  rcases List.mem_filterMap.mp hs3 with ⟨slot, _, hf⟩
  split at hf
  · rename_i hguard
    cases hf
    simpa using hguard
  · cases hf

/-- Witness for C9: a single fully free user on a working Thursday; the
top-ranked suggestion has 1 ≥ ceil(0.6 × 1) available participant. -/
theorem c9_witness :
    jsCeil (Q.ofInt (([⟨"u", "", "", [], ⟨(9, 0), (17, 0), [1, 2, 3, 4, 5]⟩⟩] :
        List UserAvailability).length : ℤ) * 0.6) ≤
      (((⟨540, 600, 60, ["u"], ⟨1, 1⟩, ⟨156, 100⟩⟩ :
        MeetingSuggestion).availableParticipants.length : ℤ)) :=
  c9_quorum [⟨"u", "", "", [], ⟨(9, 0), (17, 0), [1, 2, 3, 4, 5]⟩⟩] 60 0 0 {}
    ⟨540, 600, 60, ["u"], ⟨1, 1⟩, ⟨156, 100⟩⟩ (by decide)

/-- C10: `suggestMeetingTimes` truncates the score-sorted candidate list to
the top 10, so it never returns more than 10 suggestions. -/
theorem c10_at_most_ten (users : List UserAvailability) (duration startDate endDate : ℤ)
    (options : AvailabilityOptions) :
    (suggestMeetingTimes users duration startDate endDate options).length ≤ 10 := by
  simp only [suggestMeetingTimes]
  exact List.length_take_le 10 _

end Avail

end SocialCalendar
